import Mathlib

set_option autoImplicit false

/-!
Verification of the reference-frame shuffling subsystem and the
motion-vector predictor of a multimedia codec framework, together with
the codec registry lookup and the frame-skip mode string conversions
from the codecs module. The registry and frame-skip code is embedded
from the source file nihav-core/src/codecs/mod.rs; the shuffler and MV
code is part of the repository but not included under src, so those
definitions are modelled from the specification.
-/

namespace NihavVP6

/-- Modelled from the spec: wraparound of an integer to the signed
16-bit range, matching native fixed-width overflow behaviour of the
motion-vector components (the MV source module is not included under
src). -/
def wrap16 (n : Int) : Int := (n + 32768) % 65536 - 32768

/-- Modelled from the spec: a motion vector, a pair of signed 16-bit
integers. -/
@[ext]
structure MV where
  x : Int
  y : Int
deriving DecidableEq

/-- Modelled from the spec: both components of a motion vector lie in
the signed 16-bit range. -/
def MV.InRange16 (v : MV) : Prop :=
  -32768 ≤ v.x ∧ v.x < 32768 ∧ -32768 ≤ v.y ∧ v.y < 32768

instance (v : MV) : Decidable v.InRange16 := by
  unfold MV.InRange16
  infer_instance

/-- Modelled from the spec: componentwise wraparound addition. -/
def MV.add (a b : MV) : MV := ⟨wrap16 (a.x + b.x), wrap16 (a.y + b.y)⟩

/-- Modelled from the spec: componentwise wraparound subtraction. -/
def MV.sub (a b : MV) : MV := ⟨wrap16 (a.x - b.x), wrap16 (a.y - b.y)⟩

instance : Add MV := ⟨MV.add⟩

instance : Sub MV := ⟨MV.sub⟩

/-- Modelled from the spec: the distinguished zero motion vector. -/
def ZERO_MV : MV := ⟨0, 0⟩

/-- Modelled from the spec: median of three integers, selected by
comparing the pairwise orderings and picking the true middle value. -/
def med3 (a b c : Int) : Int :=
  if a < b then
    if b < c then b
    else if a < c then c
    else a
  else
    if b < c then
      if a < c then a
      else c
    else b

/-- Modelled from the spec: the three-point motion-vector predictor,
the componentwise median of three vectors. -/
def MV.pred (a b c : MV) : MV := ⟨med3 a.x b.x c.x, med3 a.y b.y c.y⟩

/-- Specification-side reading of the median: the middle element of the
three values after sorting them. -/
def sortedMid (a b c : Int) : Int :=
  (List.insertionSort (fun u v => u ≤ v) [a, b, c]).getD 1 0

theorem med3_eq_sortedMid (a b c : Int) : med3 a b c = sortedMid a b c := by
  unfold med3 sortedMid
  simp only [List.insertionSort, List.orderedInsert]
  repeat' split
  all_goals simp_all [List.getD]
  all_goals (repeat' split)
  all_goals simp_all
  all_goals omega

/-- C2: MV.pred returns the componentwise median of its three argument
vectors, independently on the x and y axes, where the median of three
scalars is the middle value of the three when sorted, including on ties
and for negative values; in particular the four sample evaluations from
the specification hold. -/
theorem mv_pred_componentwise_median :
    (∀ a b c : MV, MV.pred a b c = ⟨sortedMid a.x b.x c.x, sortedMid a.y b.y c.y⟩) ∧
    MV.pred ⟨0, 0⟩ ⟨5, 5⟩ ⟨10, 10⟩ = ⟨5, 5⟩ ∧
    MV.pred ⟨10, 0⟩ ⟨0, 10⟩ ⟨5, 5⟩ = ⟨5, 5⟩ ∧
    MV.pred ⟨3, 3⟩ ⟨3, 3⟩ ⟨3, 3⟩ = ⟨3, 3⟩ ∧
    MV.pred ⟨-5, -5⟩ ⟨0, 0⟩ ⟨5, 5⟩ = ⟨0, 0⟩ := by
  refine ⟨fun a b c => ?_, by decide, by decide, by decide, by decide⟩
  simp [MV.pred, med3_eq_sortedMid]

/-- C6: MV addition and subtraction are componentwise modular 16-bit
wraparound operations on the signed 16-bit components, with no
saturation; in particular MV 32767 0 + MV 1 0 = MV (-32768) 0. -/
theorem mv_add_sub_wraparound :
    (∀ a b : MV, a + b = ⟨wrap16 (a.x + b.x), wrap16 (a.y + b.y)⟩ ∧
        a - b = ⟨wrap16 (a.x - b.x), wrap16 (a.y - b.y)⟩) ∧
    MV.mk 32767 0 + MV.mk 1 0 = MV.mk (-32768) 0 := by
  refine ⟨fun a b => ⟨rfl, rfl⟩, by decide⟩

/-- C7: ZERO_MV is the identity for MV addition and v - v = ZERO_MV,
for every motion vector v with 16-bit components. -/
theorem zero_mv_identity (v : MV) (h : v.InRange16) :
    ZERO_MV + v = v ∧ v - v = ZERO_MV := by
  obtain ⟨x, y⟩ := v
  obtain ⟨h1, h2, h3, h4⟩ := h
  dsimp only at h1 h2 h3 h4
  constructor
  · show MV.add ⟨0, 0⟩ ⟨x, y⟩ = ⟨x, y⟩
    simp only [MV.add, wrap16, MV.mk.injEq]
    constructor <;> omega
  · show MV.sub ⟨x, y⟩ ⟨x, y⟩ = ⟨0, 0⟩
    simp only [MV.sub, wrap16, MV.mk.injEq]
    constructor <;> omega

/-- Witness for C7 at the concrete vector (7, -3). -/
theorem zero_mv_identity_witness :
    ZERO_MV + MV.mk 7 (-3) = MV.mk 7 (-3) ∧ MV.mk 7 (-3) - MV.mk 7 (-3) = ZERO_MV :=
  zero_mv_identity (MV.mk 7 (-3)) (by decide)

/-- Modelled from the spec: the pixel contents of one decoded frame,
opaque to the shufflers. -/
abbrev Contents := List Nat

/-- Modelled from the spec: the storage backing all video buffers. A
buffer handle is an index into this storage, so two handles with the
same index alias the same pixel storage and a deep copy allocates a
fresh cell. -/
structure Heap where
  cells : List Contents
deriving DecidableEq

/-- Modelled from the spec: a shared handle to a video buffer, an index
into the backing storage. -/
abbrev BufRef := Nat

/-- Allocates a fresh cell holding the given contents and returns the
new heap together with a handle to the cell. -/
def Heap.alloc (h : Heap) (c : Contents) : Heap × BufRef :=
  (⟨h.cells ++ [c]⟩, h.cells.length)

/-- Reads the contents behind a handle. -/
def Heap.read (h : Heap) (r : BufRef) : Contents := h.cells.getD r []

/-- Mutates the contents behind a handle in place; the change is
visible through every alias of the handle. -/
def Heap.write (h : Heap) (r : BufRef) (c : Contents) : Heap :=
  ⟨h.cells.set r c⟩

/-- Modelled from the spec: the hold-and-modify single-reference
shuffler, holding at most one frame in the lastframe slot. -/
structure HAMShuffler where
  lastframe : Option BufRef
deriving DecidableEq

/-- Modelled from the spec: constructs an empty HAMShuffler. -/
def HAMShuffler.new : HAMShuffler := ⟨none⟩

/-- Modelled from the spec: sets the slot to absent. -/
def HAMShuffler.clear (_s : HAMShuffler) : HAMShuffler := ⟨none⟩

/-- Modelled from the spec: unconditionally replaces the held buffer. -/
def HAMShuffler.add_frame (_s : HAMShuffler) (buf : BufRef) : HAMShuffler :=
  ⟨some buf⟩

/-- Modelled from the spec: if a buffer is held, performs a deep copy
of it, stores the copy back into the slot and returns a handle to that
same copy; returns absent when no buffer is held. The heap is passed
explicitly to model the allocation of the copy. -/
def HAMShuffler.clone_ref (s : HAMShuffler) (h : Heap) :
    HAMShuffler × Heap × Option BufRef :=
  match s.lastframe with
  | some r =>
      let (h2, n) := h.alloc (h.read r)
      (⟨some n⟩, h2, some n)
  | none => (s, h, none)

/-- Modelled from the spec: returns a shared handle to the held buffer,
or absent. -/
def HAMShuffler.get_output_frame (s : HAMShuffler) : Option BufRef :=
  s.lastframe

/-- Modelled from the spec: the single inter-frame reference shuffler. -/
structure IPShuffler where
  lastframe : Option BufRef
deriving DecidableEq

/-- Modelled from the spec: constructs an empty IPShuffler. -/
def IPShuffler.new : IPShuffler := ⟨none⟩

/-- Modelled from the spec: sets the slot to absent. -/
def IPShuffler.clear (_s : IPShuffler) : IPShuffler := ⟨none⟩

/-- Modelled from the spec: unconditionally replaces the held buffer. -/
def IPShuffler.add_frame (_s : IPShuffler) (buf : BufRef) : IPShuffler :=
  ⟨some buf⟩

/-- Modelled from the spec: returns a shared handle to the held buffer,
or absent. -/
def IPShuffler.get_ref (s : IPShuffler) : Option BufRef := s.lastframe

/-- Modelled from the spec: the dual-reference shuffler for
bidirectional prediction, holding the lastframe and nextframe slots. -/
structure IPBShuffler where
  lastframe : Option BufRef
  nextframe : Option BufRef
deriving DecidableEq

/-- Modelled from the spec: constructs an empty IPBShuffler. -/
def IPBShuffler.new : IPBShuffler := ⟨none, none⟩

/-- Modelled from the spec: sets both slots to absent. -/
def IPBShuffler.clear (_s : IPBShuffler) : IPBShuffler := ⟨none, none⟩

/-- Modelled from the spec: exchanges the contents of lastframe and
nextframe, then sets lastframe to the new buffer. -/
def IPBShuffler.add_frame (s : IPBShuffler) (buf : BufRef) : IPBShuffler :=
  let swapped : IPBShuffler := ⟨s.nextframe, s.lastframe⟩
  { swapped with lastframe := some buf }

/-- Modelled from the spec: shared handle to lastframe, or absent. -/
def IPBShuffler.get_lastref (s : IPBShuffler) : Option BufRef := s.lastframe

/-- Modelled from the spec: shared handle to nextframe, or absent. -/
def IPBShuffler.get_nextref (s : IPBShuffler) : Option BufRef := s.nextframe

/-- Modelled from the spec: the forward reference for bidirectional
prediction, read from the nextframe slot. -/
def IPBShuffler.get_b_fwdref (s : IPBShuffler) : Option BufRef := s.nextframe

/-- Modelled from the spec: the backward reference for bidirectional
prediction, read from the lastframe slot. -/
def IPBShuffler.get_b_bwdref (s : IPBShuffler) : Option BufRef := s.lastframe

/-- C1: IPBShuffler.add_frame exchanges the lastframe and nextframe
slots and then sets lastframe to the new buffer, so after three calls
get_lastref returns the third buffer, get_nextref returns the second
buffer, and the first buffer is held by neither slot (when it differs
from the later two); the rule also applies when only the nextframe slot
was occupied, in which case its previous occupant is discarded. -/
theorem ipb_add_frame_rotation (s : IPBShuffler) (b1 b2 b3 : BufRef)
    (h12 : b1 ≠ b2) (h13 : b1 ≠ b3) :
    (∀ (t : IPBShuffler) (b : BufRef),
        t.add_frame b = ⟨some b, t.lastframe⟩) ∧
    (((s.add_frame b1).add_frame b2).add_frame b3).get_lastref = some b3 ∧
    (((s.add_frame b1).add_frame b2).add_frame b3).get_nextref = some b2 ∧
    (((s.add_frame b1).add_frame b2).add_frame b3).lastframe ≠ some b1 ∧
    (((s.add_frame b1).add_frame b2).add_frame b3).nextframe ≠ some b1 ∧
    (∀ (x buf : BufRef),
        IPBShuffler.add_frame ⟨none, some x⟩ buf = ⟨some buf, none⟩) := by
  refine ⟨fun t b => rfl, rfl, rfl, ?_, ?_, fun x buf => rfl⟩
  · intro hcontra
    simp only [IPBShuffler.add_frame, Option.some.injEq] at hcontra
    exact h13 hcontra.symm
  · intro hcontra
    simp only [IPBShuffler.add_frame, Option.some.injEq] at hcontra
    exact h12 hcontra.symm

/-- Witness for C1: starting from the empty shuffler with the distinct
buffers 1, 2, 3, the third buffer ends up in the lastframe slot. -/
theorem ipb_add_frame_rotation_witness :
    (((IPBShuffler.new.add_frame 1).add_frame 2).add_frame 3).get_lastref = some 3 :=
  (ipb_add_frame_rotation IPBShuffler.new 1 2 3 (by decide) (by decide)).2.1

/-- C3: for every IPBShuffler state, get_b_fwdref agrees with
get_nextref and get_b_bwdref agrees with get_lastref. -/
theorem ipb_bidir_accessor_aliases :
    ∀ s : IPBShuffler,
      s.get_b_fwdref = s.get_nextref ∧ s.get_b_bwdref = s.get_lastref :=
  fun _ => ⟨rfl, rfl⟩

/-- C5: after clear, every read accessor of every shuffler variant
returns the absent result, and clone_ref additionally leaves the state
empty and the heap untouched. -/
theorem clear_resets_all_shufflers :
    ∀ (a : HAMShuffler) (b : IPShuffler) (c : IPBShuffler) (h : Heap),
      a.clear.get_output_frame = none ∧
      a.clear.clone_ref h = (a.clear, h, none) ∧
      b.clear.get_ref = none ∧
      c.clear.get_lastref = none ∧
      c.clear.get_nextref = none ∧
      c.clear.get_b_fwdref = none ∧
      c.clear.get_b_bwdref = none :=
  fun _ _ _ _ => ⟨rfl, rfl, rfl, rfl, rfl, rfl, rfl⟩

theorem Heap.read_alloc_new (h : Heap) (c : Contents) :
    (h.alloc c).1.read (h.alloc c).2 = c := by
  simp [Heap.alloc, Heap.read, List.getD_eq_getElem?_getD,
    List.getElem?_concat_length]

theorem Heap.read_alloc_old (h : Heap) (c : Contents) (r : BufRef)
    (hr : r < h.cells.length) : (h.alloc c).1.read r = h.read r := by
  simp [Heap.alloc, Heap.read, List.getD_eq_getElem?_getD,
    List.getElem?_append_left hr]

theorem Heap.read_write_ne (h : Heap) (r1 r2 : BufRef) (c : Contents)
    (hne : r1 ≠ r2) : (h.write r1 c).read r2 = h.read r2 := by
  simp [Heap.write, Heap.read, List.getD_eq_getElem?_getD,
    List.getElem?_set_ne hne]

/-- C4: HAMShuffler.clone_ref on a held buffer deep-copies it, stores
the copy back into the slot and returns a handle to that same copy,
and returns absent when no buffer is held; two consecutive calls
return handles whose contents equal the contents of the original
buffer at copy time, backed by storage distinct from the original
handle, so mutating the latest copy affects neither the original
handle nor the handle returned by the first call. -/
theorem ham_clone_ref_deep_copy (h : Heap) (r : BufRef)
    (hr : r < h.cells.length) :
    ∃ (s1 : HAMShuffler) (h1 : Heap) (n1 : BufRef)
      (s2 : HAMShuffler) (h2 : Heap) (n2 : BufRef),
      HAMShuffler.clone_ref ⟨some r⟩ h = (s1, h1, some n1) ∧
      HAMShuffler.clone_ref s1 h1 = (s2, h2, some n2) ∧
      s1.lastframe = some n1 ∧
      s2.lastframe = some n2 ∧
      h1.read n1 = h.read r ∧
      h2.read n2 = h.read r ∧
      h2.read n1 = h.read r ∧
      n1 ≠ r ∧ n2 ≠ r ∧ n2 ≠ n1 ∧
      (∀ c : Contents, (h2.write n2 c).read r = h.read r) ∧
      (∀ c : Contents, (h2.write n2 c).read n1 = h.read r) ∧
      (∀ hp : Heap, HAMShuffler.clone_ref ⟨none⟩ hp = (⟨none⟩, hp, none)) := by
  have hlen : ((⟨h.cells ++ [h.read r]⟩ : Heap)).cells.length = h.cells.length + 1 := by
    simp
  have hlt1 : h.cells.length < (⟨h.cells ++ [h.read r]⟩ : Heap).cells.length := by
    rw [hlen]
    exact Nat.lt_succ_self _
  have hltr : r < (⟨h.cells ++ [h.read r]⟩ : Heap).cells.length := by
    rw [hlen]
    exact Nat.lt_succ_of_lt hr
  refine ⟨⟨some h.cells.length⟩, ⟨h.cells ++ [h.read r]⟩, h.cells.length,
    _, _, _, rfl, rfl, rfl, rfl, ?_, ?_, ?_, ?_, ?_, ?_, ?_, ?_,
    fun hp => rfl⟩
  · exact Heap.read_alloc_new h (h.read r)
  · exact (Heap.read_alloc_new ⟨h.cells ++ [h.read r]⟩ _).trans
      (Heap.read_alloc_new h (h.read r))
  · exact (Heap.read_alloc_old ⟨h.cells ++ [h.read r]⟩ _ h.cells.length
      hlt1).trans (Heap.read_alloc_new h (h.read r))
  · exact Nat.ne_of_gt hr
  · exact Nat.ne_of_gt hltr
  · exact Nat.ne_of_gt hlt1
  · intro c
    exact (Heap.read_write_ne _ _ _ _ (Nat.ne_of_gt hltr)).trans
      ((Heap.read_alloc_old ⟨h.cells ++ [h.read r]⟩ _ r
        hltr).trans (Heap.read_alloc_old h _ r hr))
  · intro c
    exact (Heap.read_write_ne _ _ _ _ (Nat.ne_of_gt hlt1)).trans
      ((Heap.read_alloc_old ⟨h.cells ++ [h.read r]⟩ _ h.cells.length
        hlt1).trans (Heap.read_alloc_new h (h.read r)))

/-- Witness for C4 on the one-buffer heap holding the contents [7]. -/
theorem ham_clone_ref_deep_copy_witness :
    ∃ (s1 : HAMShuffler) (h1 : Heap) (n1 : BufRef)
      (s2 : HAMShuffler) (h2 : Heap) (n2 : BufRef),
      HAMShuffler.clone_ref ⟨some 0⟩ ⟨[[7]]⟩ = (s1, h1, some n1) ∧
      HAMShuffler.clone_ref s1 h1 = (s2, h2, some n2) ∧
      s1.lastframe = some n1 ∧
      s2.lastframe = some n2 ∧
      h1.read n1 = Heap.read ⟨[[7]]⟩ 0 ∧
      h2.read n2 = Heap.read ⟨[[7]]⟩ 0 ∧
      h2.read n1 = Heap.read ⟨[[7]]⟩ 0 ∧
      n1 ≠ 0 ∧ n2 ≠ 0 ∧ n2 ≠ n1 ∧
      (∀ c : Contents, (h2.write n2 c).read 0 = Heap.read ⟨[[7]]⟩ 0) ∧
      (∀ c : Contents, (h2.write n2 c).read n1 = Heap.read ⟨[[7]]⟩ 0) ∧
      (∀ hp : Heap, HAMShuffler.clone_ref ⟨none⟩ hp = (⟨none⟩, hp, none)) :=
  ham_clone_ref_deep_copy ⟨[[7]]⟩ 0 (by decide)

/-- C8: the shuffler and MV operations of the core are total: the
wraparound always lands in the signed 16-bit range, so MV addition and
subtraction are closed over 16-bit vectors, and every shuffler read
accessor yields an explicit optional value, with absence reported as
the none result rather than an error. -/
theorem core_ops_total :
    (∀ n : Int, -32768 ≤ wrap16 n ∧ wrap16 n < 32768) ∧
    (∀ a b : MV, (a + b).InRange16 ∧ (a - b).InRange16) ∧
    (∀ s : HAMShuffler,
        s.get_output_frame = none ∨ ∃ b, s.get_output_frame = some b) ∧
    (∀ (s : HAMShuffler) (h : Heap),
        (s.clone_ref h).2.2 = none ∨ ∃ b, (s.clone_ref h).2.2 = some b) ∧
    (∀ s : IPShuffler, s.get_ref = none ∨ ∃ b, s.get_ref = some b) ∧
    (∀ s : IPBShuffler,
        (s.get_lastref = none ∨ ∃ b, s.get_lastref = some b) ∧
        (s.get_nextref = none ∨ ∃ b, s.get_nextref = some b)) ∧
    HAMShuffler.new.get_output_frame = none ∧
    IPShuffler.new.get_ref = none ∧
    IPBShuffler.new.get_lastref = none ∧
    IPBShuffler.new.get_nextref = none := by
  have hw : ∀ n : Int, -32768 ≤ wrap16 n ∧ wrap16 n < 32768 := by
    intro n
    unfold wrap16
    omega
  refine ⟨hw, fun a b => ⟨⟨(hw _).1, (hw _).2, (hw _).1, (hw _).2⟩,
      ⟨(hw _).1, (hw _).2, (hw _).1, (hw _).2⟩⟩,
    fun s => ?_, fun s h => ?_, fun s => ?_, fun s => ⟨?_, ?_⟩,
    rfl, rfl, rfl, rfl⟩
  · cases hs : s.get_output_frame with
    | none => exact Or.inl rfl
    | some b => exact Or.inr ⟨b, rfl⟩
  · cases hs : (s.clone_ref h).2.2 with
    | none => exact Or.inl rfl
    | some b => exact Or.inr ⟨b, rfl⟩
  · cases hs : s.get_ref with
    | none => exact Or.inl rfl
    | some b => exact Or.inr ⟨b, rfl⟩
  · cases hs : s.get_lastref with
    | none => exact Or.inl rfl
    | some b => exact Or.inr ⟨b, rfl⟩
  · cases hs : s.get_nextref with
    | none => exact Or.inl rfl
    | some b => exact Or.inr ⟨b, rfl⟩

/-- General decoding errors, from nihav-core/src/codecs/mod.rs. -/
inductive DecoderError where
  | NoFrame
  | AllocError
  | TryAgain
  | InvalidData
  | ShortData
  | MissingReference
  | NotImplemented
  | Bug
deriving DecidableEq

/-- Decoder information: the short name together with the constructor
function of the decoder, the latter opaque to this development and
therefore embedded as an identifier. -/
structure DecoderInfo where
  name : String
  get_decoder : Nat
deriving DecidableEq

/-- Registry of known decoders. -/
structure RegisteredDecoders where
  decs : List DecoderInfo
deriving DecidableEq

/-- Constructs an empty decoder registry. -/
def RegisteredDecoders.new : RegisteredDecoders := ⟨[]⟩

/-- Adds another decoder at the end of the registry. -/
def RegisteredDecoders.add_decoder (r : RegisteredDecoders)
    (dec : DecoderInfo) : RegisteredDecoders :=
  ⟨r.decs ++ [dec]⟩

/-- The lookup loop shared by the decoder and encoder registries: scan
the entries in order and return the payload of the first entry whose
name equals the query. -/
def findFirstLoop {α β : Type} (getName : α → String) (payload : α → β) :
    List α → String → Option β
  | [], _ => none
  | d :: rest, n =>
      if getName d = n then some (payload d)
      else findFirstLoop getName payload rest n

/-- Searches the registry for a decoder of the given name. -/
def RegisteredDecoders.find_decoder (r : RegisteredDecoders)
    (n : String) : Option Nat :=
  findFirstLoop DecoderInfo.name DecoderInfo.get_decoder r.decs n

/-- Encoder information: the short name together with the constructor
function of the encoder, embedded as an identifier. -/
structure EncoderInfo where
  name : String
  get_encoder : Nat
deriving DecidableEq

/-- Registry of known encoders. -/
structure RegisteredEncoders where
  encs : List EncoderInfo
deriving DecidableEq

/-- Constructs an empty encoder registry. -/
def RegisteredEncoders.new : RegisteredEncoders := ⟨[]⟩

/-- Adds another encoder at the end of the registry. -/
def RegisteredEncoders.add_encoder (r : RegisteredEncoders)
    (enc : EncoderInfo) : RegisteredEncoders :=
  ⟨r.encs ++ [enc]⟩

/-- Searches the registry for an encoder of the given name. -/
def RegisteredEncoders.find_encoder (r : RegisteredEncoders)
    (n : String) : Option Nat :=
  findFirstLoop EncoderInfo.name EncoderInfo.get_encoder r.encs n

theorem findFirstLoop_eq_none_iff {α β : Type} (getName : α → String)
    (payload : α → β) (l : List α) (n : String) :
    findFirstLoop getName payload l n = none ↔ ∀ d ∈ l, getName d ≠ n := by
  induction l with
  | nil => simp [findFirstLoop]
  | cons d rest ih =>
      by_cases hd : getName d = n <;> simp [findFirstLoop, hd, ih]

theorem findFirstLoop_eq_some_iff {α β : Type} (getName : α → String)
    (payload : α → β) (l : List α) (n : String) (g : β) :
    findFirstLoop getName payload l n = some g ↔
      ∃ l1 d l2, l = l1 ++ d :: l2 ∧ getName d = n ∧ payload d = g ∧
        ∀ e ∈ l1, getName e ≠ n := by
  induction l with
  | nil => simp [findFirstLoop]
  | cons a rest ih =>
      by_cases ha : getName a = n
      · simp only [findFirstLoop, if_pos ha, Option.some.injEq]
        constructor
        · intro hg
          exact ⟨[], a, rest, rfl, ha, hg, by simp⟩
        · rintro ⟨l1, d, l2, hsplit, hname, hpay, hnomatch⟩
          cases l1 with
          | nil =>
              simp only [List.nil_append, List.cons.injEq] at hsplit
              rw [hsplit.1]
              exact hpay
          | cons e l1' =>
              simp only [List.cons_append, List.cons.injEq] at hsplit
              exact absurd (hsplit.1 ▸ ha) (hnomatch e (by simp))
      · simp only [findFirstLoop, if_neg ha, ih]
        constructor
        · rintro ⟨l1, d, l2, hsplit, hname, hpay, hnomatch⟩
          refine ⟨a :: l1, d, l2, by rw [hsplit, List.cons_append], hname, hpay, ?_⟩
          intro e he
          rcases List.mem_cons.mp he with he | he
          · rw [he]
            exact ha
          · exact hnomatch e he
        · rintro ⟨l1, d, l2, hsplit, hname, hpay, hnomatch⟩
          cases l1 with
          | nil =>
              simp only [List.nil_append, List.cons.injEq] at hsplit
              exact absurd (hsplit.1 ▸ hname) ha
          | cons e l1' =>
              simp only [List.cons_append, List.cons.injEq] at hsplit
              refine ⟨l1', d, l2, hsplit.2, hname, hpay, ?_⟩
              intro x hx
              exact hnomatch x (by simp [hx])

/-- C9: find_decoder and find_encoder return the constructor of the
earliest-added entry whose name equals the query, and none when no
entry matches; the lookup consumes the registry read-only, returning
only the optional constructor. -/
theorem registry_find_first_match :
    (∀ (r : RegisteredDecoders) (n : String) (g : Nat),
        r.find_decoder n = some g ↔
          ∃ l1 d l2, r.decs = l1 ++ d :: l2 ∧ d.name = n ∧
            d.get_decoder = g ∧ ∀ e ∈ l1, e.name ≠ n) ∧
    (∀ (r : RegisteredDecoders) (n : String),
        r.find_decoder n = none ↔ ∀ d ∈ r.decs, d.name ≠ n) ∧
    (∀ (r : RegisteredEncoders) (n : String) (g : Nat),
        r.find_encoder n = some g ↔
          ∃ l1 d l2, r.encs = l1 ++ d :: l2 ∧ d.name = n ∧
            d.get_encoder = g ∧ ∀ e ∈ l1, e.name ≠ n) ∧
    (∀ (r : RegisteredEncoders) (n : String),
        r.find_encoder n = none ↔ ∀ d ∈ r.encs, d.name ≠ n) :=
  ⟨fun r n g => findFirstLoop_eq_some_iff _ _ r.decs n g,
   fun r n => findFirstLoop_eq_none_iff _ _ r.decs n,
   fun r n g => findFirstLoop_eq_some_iff _ _ r.encs n g,
   fun r n => findFirstLoop_eq_none_iff _ _ r.encs n⟩

/-- Modelled from the spec: the three frame-skip option value string
constants live in the options module of this repository, which is not
included under src; they are embedded as three pairwise distinct
strings. -/
def FRAME_SKIP_OPTION_VAL_NONE : String := "none"

/-- Modelled from the spec: the keyframes-only option value constant. -/
def FRAME_SKIP_OPTION_VAL_KEYFRAME : String := "keyframe"

/-- Modelled from the spec: the intra-only option value constant. -/
def FRAME_SKIP_OPTION_VAL_INTRA : String := "intra"

/-- Frame skipping mode for decoders. -/
inductive FrameSkipMode where
  | None
  | KeyframesOnly
  | IntraOnly
deriving DecidableEq

/-- Parses a frame-skip mode from its option string, matching the
option value constants in order and failing with InvalidData on any
other string. -/
def FrameSkipMode.from_str (s : String) : Except DecoderError FrameSkipMode :=
  if s = FRAME_SKIP_OPTION_VAL_NONE then Except.ok FrameSkipMode.None
  else if s = FRAME_SKIP_OPTION_VAL_KEYFRAME then Except.ok FrameSkipMode.KeyframesOnly
  else if s = FRAME_SKIP_OPTION_VAL_INTRA then Except.ok FrameSkipMode.IntraOnly
  else Except.error DecoderError.InvalidData

/-- Renders a frame-skip mode as its option value constant. -/
def FrameSkipMode.to_string (m : FrameSkipMode) : String :=
  match m with
  | FrameSkipMode.None => FRAME_SKIP_OPTION_VAL_NONE
  | FrameSkipMode.KeyframesOnly => FRAME_SKIP_OPTION_VAL_KEYFRAME
  | FrameSkipMode.IntraOnly => FRAME_SKIP_OPTION_VAL_INTRA

/-- C10: converting any FrameSkipMode to its option string and parsing
it back yields the same mode, and parsing any string that differs from
all three option value constants fails with InvalidData. -/
theorem frame_skip_mode_round_trip (s : String)
    (h1 : s ≠ FRAME_SKIP_OPTION_VAL_NONE)
    (h2 : s ≠ FRAME_SKIP_OPTION_VAL_KEYFRAME)
    (h3 : s ≠ FRAME_SKIP_OPTION_VAL_INTRA) :
    (∀ m : FrameSkipMode, FrameSkipMode.from_str m.to_string = Except.ok m) ∧
    FrameSkipMode.from_str s = Except.error DecoderError.InvalidData := by
  constructor
  · intro m
    cases m <;>
      simp [FrameSkipMode.from_str, FrameSkipMode.to_string,
        FRAME_SKIP_OPTION_VAL_NONE, FRAME_SKIP_OPTION_VAL_KEYFRAME,
        FRAME_SKIP_OPTION_VAL_INTRA]
  · simp [FrameSkipMode.from_str, h1, h2, h3]

/-- Witness for C10 at the string str, which matches none of the three
option value constants. -/
theorem frame_skip_mode_round_trip_witness :
    (∀ m : FrameSkipMode, FrameSkipMode.from_str m.to_string = Except.ok m) ∧
    FrameSkipMode.from_str "str" = Except.error DecoderError.InvalidData :=
  frame_skip_mode_round_trip "str" (by decide) (by decide) (by decide)

end NihavVP6
